import Mathlib

/-!
# Shallow embedding of the delphi batched classification scoring pipeline

This file embeds, in Lean, the parts of the repository that the claims
touch:

* `delphi/scorers/classifier/classifier.py` — the `Classifier` base class:
  batching (`_batch`), prompt building (`_build_prompt`), concurrency-bounded
  dispatch (`_query`), per-batch generation and result assembly (`_generate`),
  and response parsing (`_parse`, `_parse_logprobs`);
* `sae_auto_interp/scorers/classifier/recall.py` — the `RecallScorer`
  sample preparer (`_prepare`);
* `src/sae_auto_interp/features/samplers.py` — quantile splitting and the
  `check_quantile` input-contract check.

Numbers carried by log-probabilities and probabilities are embedded as
rationals; the ambient floating-point exponential `np.exp` is an explicit
function parameter `exp : ℚ → ℚ` of the definitions that use it.  The
generation client is an explicit function from the prompt string to either a
response or a raised error (`Except`): `try/except` around the client call is
embedded by matching on that `Except`.
-/

namespace Delphi

/-- Python's `"c" in s` membership test for a one-character needle:
`c` occurs among the characters of `s`. -/
def strHas (s : String) (c : Char) : Bool := s.data.contains c

/-- One entry of `top_logprobs`: an alternative token and its log-probability
(`delphi/clients` response shape, used by `Classifier._parse_logprobs`). -/
structure TopLogprob where
  token : String
  logprob : ℚ
  deriving DecidableEq, Repr

/-- Per-token log-probability data of a response: the chosen token and its
top-5 alternatives. -/
structure TokenLogprob where
  token : String
  top_logprobs : List TopLogprob
  deriving DecidableEq, Repr

/-- A generation-client response: `.text` plus optional per-token
log-probabilities. -/
structure Response where
  text : String
  logprobs : Option (List TokenLogprob)
  deriving DecidableEq, Repr

/-- A value produced by Python's `json.loads`, as it can reach
`result.prediction` through `_parse` (the `list[int]` annotation is not
enforced at runtime, so any JSON array element can become a prediction):

* `int` — a JSON integer (also the substituted failure marker `-1`);
* `float` — a JSON number with a fraction or exponent part, carried as its
  exact decimal value (Python converts it to an IEEE double; that rounding is
  out of modelled scope and is observable only through the `correct` flag on
  floats within one rounding error of `0.0`/`1.0`, which no claim touches);
* `nan` / `inf` — the non-standard `NaN` / `Infinity` / `-Infinity` constants
  Python's decoder accepts by default;
* `str` — a decoded JSON string, as its sequence of code points (a `List Nat`,
  since Python's `str` may carry lone surrogates that `Char` cannot);
* `bool`, `null` — the JSON literals;
* `obj` / `arr` — a nested object or array, validated against the JSON
  grammar but carried as its raw character span: the pipeline never inspects
  such a value (Python compares it to a `bool` with `==`, which is `False`
  for any `dict`/`list`), so the representation is observationally inert. -/
inductive Jv where
  | int (n : Int)
  | float (q : ℚ)
  | nan
  | inf (neg : Bool)
  | str (codes : List Nat)
  | bool (b : Bool)
  | null
  | obj (raw : List Char)
  | arr (raw : List Char)
  deriving DecidableEq, Repr

/-- Modelled from the spec: the `ClassifierOutput` record of the missing
`sample.py` (spec §3 DATA MODEL).  `ground_truth` and `distance` are fixed at
construction; `prediction`, `correct`, `probability` and `text` are written by
the result assembler in `Classifier._generate`, so their construction-time
values are placeholders (`probability` and `text` are absent, i.e. `none`,
until attached).  `prediction` holds whatever `json.loads` produced for the
sample's slot — an integer in the intended protocol, `Jv.int (-1)` on the
failure paths, but possibly any other JSON value on an off-protocol
response. -/
structure ClassifierOutput where
  ground_truth : Bool
  distance : Int
  prediction : Jv := Jv.int 0
  correct : Bool := false
  probability : Option ℚ := none
  text : Option String := none
  deriving DecidableEq, Repr

/-- Modelled from the spec: the `Sample` record of the missing `sample.py`
(spec §3 DATA MODEL): the rendered text shown to the model and the result
record (`sample.data`) holding ground truth and provenance. -/
structure Sample where
  text : String
  data : ClassifierOutput
  deriving DecidableEq, Repr

/-- The configuration of `Classifier.__init__`
(`delphi/scorers/classifier/classifier.py`, lines 18-33): the generation
client, `verbose`, `batch_size` and `log_prob`, plus the prompt template
(`self.prompt`, supplied by the concrete scorer).  The tokenizer is only used
by the sample preparer and is threaded there directly; `generation_kwargs` are
forwarded opaquely to the client and are absorbed into the `client` function. -/
structure Classifier where
  client : String → Except String Response
  verbose : Bool
  batch_size : Nat
  log_prob : Bool
  promptTemplate : String → String → String

/-! ## Text parsing: `re.search(r"\[.*?\]", string)` and `json.loads`

`Classifier._parse` locates the first bracketed literal with the non-greedy
pattern and feeds it to `json.loads`.  We model the regex exactly (`.` does
not match a newline; the non-greedy scan stops at the first `]` reachable
from the first viable `[`) and `json.loads` on array documents — the regex
match always begins with `[`, so the decoded document is always an array.
Array elements may be any JSON value (numbers, strings, booleans, `null`,
the non-standard `NaN`/`Infinity` constants, nested objects and arrays):
the `list[int]` annotation in `_parse` is not enforced, so all of these
parse in the source, pass the batch-size `assert` when the count is right,
and become the batch's predictions. -/

/-- Helper for the non-greedy `\[.*?\]` match: the characters up to and
including the first `]`, provided no newline intervenes (`.` does not match
`\n`); `none` when no such `]` exists. -/
def findClose : List Char → Option (List Char)
  | [] => none
  | c :: cs =>
    if c = ']' then some [']']
    else if c = '\n' then none
    else (findClose cs).map (fun l => c :: l)

/-- `re.search(r"\[.*?\]", s)` over the characters of `s`: scan left to right
for a `[` from which a same-line `]` is reachable, and return that minimal
match. -/
def reFirstBracket : List Char → Option (List Char)
  | [] => none
  | c :: cs =>
    if c = '[' then
      match findClose cs with
      | some inner => some ('[' :: inner)
      | none => reFirstBracket cs
    else reFirstBracket cs

/-- JSON whitespace. -/
def isJsonWs (c : Char) : Bool := c = ' ' || c = '\t' || c = '\n' || c = '\r'

/-- Drop leading JSON whitespace. -/
def skipWs : List Char → List Char
  | [] => []
  | c :: cs => if isJsonWs c then skipWs cs else c :: cs

/-- Longest leading run of decimal digits. -/
def takeDigits : List Char → List Char × List Char
  | [] => ([], [])
  | c :: cs =>
    if c.isDigit then
      let p := takeDigits cs
      (c :: p.1, p.2)
    else ([], c :: cs)

/-- Decimal value of a digit run. -/
def digitsToNat (ds : List Char) : Nat :=
  ds.foldl (fun n c => 10 * n + (c.toNat - 48)) 0

/-- Value of a hexadecimal digit, for `\uXXXX` escapes. -/
def hexVal (c : Char) : Option Nat :=
  if '0' ≤ c ∧ c ≤ '9' then some (c.toNat - 48)
  else if 'a' ≤ c ∧ c ≤ 'f' then some (c.toNat - 87)
  else if 'A' ≤ c ∧ c ≤ 'F' then some (c.toNat - 55)
  else none

/-- Decode a JSON string body, the opening quote already consumed: the code
points of the decoded string and the characters after the closing quote.
Mirrors Python's `py_scanstring` in strict mode: raw characters below `0x20`
are rejected; the eight simple escapes and `\uXXXX` are decoded; a high
surrogate immediately followed by a `\u` escape must carry four valid hex
digits, and combines with it when it is a low surrogate, otherwise both code
points are kept as they are (Python strings can hold lone surrogates, hence
code points rather than `Char`).  Each step consumes at least one character,
so fuel `length + 1` always suffices. -/
def jsonString : Nat → List Char → Option (List Nat × List Char)
  | 0, _ => none
  | fuel + 1, cs =>
    match cs with
    | [] => none
    | c :: rest =>
      if c = '"' then some ([], rest)
      else if c = '\\' then
        match rest with
        | [] => none
        | e :: r =>
          if e = '"' then (jsonString fuel r).map fun p => (34 :: p.1, p.2)
          else if e = '\\' then (jsonString fuel r).map fun p => (92 :: p.1, p.2)
          else if e = '/' then (jsonString fuel r).map fun p => (47 :: p.1, p.2)
          else if e = 'b' then (jsonString fuel r).map fun p => (8 :: p.1, p.2)
          else if e = 'f' then (jsonString fuel r).map fun p => (12 :: p.1, p.2)
          else if e = 'n' then (jsonString fuel r).map fun p => (10 :: p.1, p.2)
          else if e = 'r' then (jsonString fuel r).map fun p => (13 :: p.1, p.2)
          else if e = 't' then (jsonString fuel r).map fun p => (9 :: p.1, p.2)
          else if e = 'u' then
            match r with
            | h1 :: h2 :: h3 :: h4 :: r2 =>
              match hexVal h1, hexVal h2, hexVal h3, hexVal h4 with
              | some a, some b, some c2, some d =>
                let n := ((a * 16 + b) * 16 + c2) * 16 + d
                if 0xD800 ≤ n ∧ n ≤ 0xDBFF then
                  match r2 with
                  | '\\' :: 'u' :: g1 :: g2 :: g3 :: g4 :: r3 =>
                    match hexVal g1, hexVal g2, hexVal g3, hexVal g4 with
                    | some w, some x, some y, some z =>
                      let m := ((w * 16 + x) * 16 + y) * 16 + z
                      if 0xDC00 ≤ m ∧ m ≤ 0xDFFF then
                        (jsonString fuel r3).map fun p =>
                          ((0x10000 + (n - 0xD800) * 0x400 + (m - 0xDC00)) :: p.1, p.2)
                      else
                        (jsonString fuel r2).map fun p => (n :: p.1, p.2)
                    | _, _, _, _ => none
                  | '\\' :: 'u' :: _ => none
                  | _ => (jsonString fuel r2).map fun p => (n :: p.1, p.2)
                else (jsonString fuel r2).map fun p => (n :: p.1, p.2)
              | _, _, _, _ => none
            | _ => none
          else none
      else if c.toNat < 0x20 then none
      else (jsonString fuel rest).map fun p => (c.toNat :: p.1, p.2)

/-- Parse one JSON number (the regex
`-?(0|[1-9][0-9]*)(\.[0-9]+)?([eE][+-]?[0-9]+)?` Python's decoder uses):
a plain integer becomes `Jv.int` (Python's `int`); a fraction or exponent
makes it `Jv.float` with its exact decimal value (Python's `float`). -/
def jsonNumber (cs : List Char) : Option (Jv × List Char) :=
  let p : Bool × List Char := match cs with
    | '-' :: rest => (true, rest)
    | _ => (false, cs)
  let d := takeDigits p.2
  match d.1 with
  | [] => none
  | c0 :: ds =>
    if c0 = '0' ∧ ds ≠ [] then none
    else
      let ipart := digitsToNat (c0 :: ds)
      let fr : Option (List Char × List Char) := match d.2 with
        | '.' :: r =>
          let f := takeDigits r
          if f.1 = [] then none else some (f.1, f.2)
        | other => some ([], other)
      match fr with
      | none => none
      | some (fds, rest2) =>
        let ex : Option (Bool × List Char × List Char) := match rest2 with
          | e :: r =>
            if e = 'e' ∨ e = 'E' then
              let se : Bool × List Char := match r with
                | '+' :: r2 => (false, r2)
                | '-' :: r2 => (true, r2)
                | _ => (false, r)
              let g := takeDigits se.2
              if g.1 = [] then none else some (se.1, g.1, g.2)
            else some (false, [], e :: r)
          | [] => some (false, [], [])
        match ex with
        | none => none
        | some (eneg, eds, rest3) =>
          if fds = [] ∧ eds = [] then
            some (Jv.int (if p.1 then -(ipart : Int) else (ipart : Int)), rest3)
          else
            let mant : ℚ := (ipart : ℚ) + (digitsToNat fds : ℚ) / (10 : ℚ) ^ fds.length
            let emag : ℚ := (10 : ℚ) ^ digitsToNat eds
            let mag : ℚ := if eneg then mant / emag else mant * emag
            some (Jv.float (if p.1 then -mag else mag), rest3)

/-! `jvSkip`, `jvSkipItems` and `jvSkipMembers` skip (validate) one JSON
value, the remaining items of an array, and the remaining members of an
object, returning the characters after it; leading whitespace must already be
skipped.  The mutual recursion spends one unit of fuel per call and at least
every second call consumes a character, so fuel `2 * length + 4` always
suffices. -/
mutual

def jvSkip : Nat → List Char → Option (List Char)
  | 0, _ => none
  | fuel + 1, cs =>
    match cs with
    | '"' :: r => (jsonString (r.length + 1) r).map fun p => p.2
    | '{' :: r =>
      match skipWs r with
      | '}' :: r2 => some r2
      | w => jvSkipMembers fuel w
    | '[' :: r =>
      match skipWs r with
      | ']' :: r2 => some r2
      | w => jvSkipItems fuel w
    | 't' :: 'r' :: 'u' :: 'e' :: r => some r
    | 'f' :: 'a' :: 'l' :: 's' :: 'e' :: r => some r
    | 'n' :: 'u' :: 'l' :: 'l' :: r => some r
    | 'N' :: 'a' :: 'N' :: r => some r
    | 'I' :: 'n' :: 'f' :: 'i' :: 'n' :: 'i' :: 't' :: 'y' :: r => some r
    | '-' :: 'I' :: 'n' :: 'f' :: 'i' :: 'n' :: 'i' :: 't' :: 'y' :: r => some r
    | _ => (jsonNumber cs).map fun p => p.2

def jvSkipItems : Nat → List Char → Option (List Char)
  | 0, _ => none
  | fuel + 1, cs =>
    match jvSkip fuel cs with
    | none => none
    | some rest =>
      match skipWs rest with
      | ']' :: r2 => some r2
      | ',' :: r2 => jvSkipItems fuel (skipWs r2)
      | _ => none

def jvSkipMembers : Nat → List Char → Option (List Char)
  | 0, _ => none
  | fuel + 1, cs =>
    match cs with
    | '"' :: r =>
      match jsonString (r.length + 1) r with
      | none => none
      | some (_, rest) =>
        match skipWs rest with
        | ':' :: r2 =>
          match jvSkip fuel (skipWs r2) with
          | none => none
          | some rest2 =>
            match skipWs rest2 with
            | '}' :: r3 => some r3
            | ',' :: r3 => jvSkipMembers fuel (skipWs r3)
            | _ => none
        | _ => none
    | _ => none

end

/-- Parse one JSON value as `json.loads` decodes it.  Scalars are decoded to
their values; a nested object or array is validated by `jvSkip` and carried
as its raw span (see `Jv`).  Leading whitespace must already be skipped. -/
def jvValue (cs : List Char) : Option (Jv × List Char) :=
  match cs with
  | '"' :: r => (jsonString (r.length + 1) r).map fun p => (Jv.str p.1, p.2)
  | '{' :: _ =>
    match jvSkip (2 * cs.length + 4) cs with
    | none => none
    | some rest => some (Jv.obj (cs.take (cs.length - rest.length)), rest)
  | '[' :: _ =>
    match jvSkip (2 * cs.length + 4) cs with
    | none => none
    | some rest => some (Jv.arr (cs.take (cs.length - rest.length)), rest)
  | 't' :: 'r' :: 'u' :: 'e' :: r => some (Jv.bool true, r)
  | 'f' :: 'a' :: 'l' :: 's' :: 'e' :: r => some (Jv.bool false, r)
  | 'n' :: 'u' :: 'l' :: 'l' :: r => some (Jv.null, r)
  | 'N' :: 'a' :: 'N' :: r => some (Jv.nan, r)
  | 'I' :: 'n' :: 'f' :: 'i' :: 'n' :: 'i' :: 't' :: 'y' :: r =>
    some (Jv.inf false, r)
  | '-' :: 'I' :: 'n' :: 'f' :: 'i' :: 'n' :: 'i' :: 't' :: 'y' :: r =>
    some (Jv.inf true, r)
  | _ => jsonNumber cs

/-- Parse the elements of a JSON array after the opening `[` (first element
expected next, whitespace skipped); succeeds only if the closing `]` ends the
document up to trailing whitespace, as `json.loads` requires.  Fuel-indexed
so the recursion is structural; each step consumes the element and its
delimiter, so fuel `length + 1` always suffices. -/
def jvElems : Nat → List Char → List Jv → Option (List Jv)
  | 0, _, _ => none
  | fuel + 1, cs, acc =>
    match jvValue cs with
    | none => none
    | some (v, rest) =>
      match skipWs rest with
      | ']' :: rest2 => if skipWs rest2 = [] then some (acc ++ [v]) else none
      | ',' :: rest2 => jvElems fuel (skipWs rest2) (acc ++ [v])
      | _ => none

/-- `json.loads` on an array document (every regex match starts with `[`):
the whole character sequence must be one JSON array, whitespace aside. -/
def jsonArrayDoc (cs : List Char) : Option (List Jv) :=
  match cs with
  | '[' :: rest =>
    match skipWs rest with
    | ']' :: rest2 => if skipWs rest2 = [] then some [] else none
    | other => jvElems (cs.length + 1) other []
  | _ => none

/-- The composition `json.loads(re.search(r"\[.*?\]", s).group(0))` used by
`Classifier._parse`: `none` when there is no regex match (the `AttributeError`
on `.group`) or the match is not a JSON array document (the `json` error). -/
def jsonLoadsFirstBracket (s : String) : Option (List Jv) :=
  (reFirstBracket s.data).bind jsonArrayDoc

/-! ## `Classifier._parse_logprobs` -/

/-- The accumulation loop of `Classifier._parse_logprobs` over the top-5
alternatives of one response token (classifier.py lines 160-168): `prob_0`
gathers `np.exp(logprob)` of alternatives containing `'0'`, and — through the
`elif` — `prob_1` gathers those containing `'1'` but not `'0'`. -/
def topPair (exp : ℚ → ℚ) (tls : List TopLogprob) : ℚ × ℚ :=
  tls.foldl
    (fun pp tl =>
      if strHas tl.token '0' then (pp.1 + exp tl.logprob, pp.2)
      else if strHas tl.token '1' then (pp.1, pp.2 + exp tl.logprob)
      else pp)
    (0, 0)

/-- The per-token emission of `Classifier._parse_logprobs` (classifier.py
lines 169-172): `prob_1 / (prob_0 + prob_1)` when the sum is positive, else
`0`. -/
def binaryProb (exp : ℚ → ℚ) (tls : List TopLogprob) : ℚ :=
  let pp := topPair exp tls
  if pp.1 + pp.2 > 0 then pp.2 / (pp.1 + pp.2) else 0

/-- `Classifier._parse_logprobs` (classifier.py lines 144-175): for every
response token whose surface form contains `'1'` or `'0'`, emit the normalized
probability from its top-5 alternatives; the `assert` on the final count
becomes the length guard (`none` embeds the raised `AssertionError`).
`exp` abstracts `np.exp`; `batch_size` is the `self.batch_size` field read by
the assertion. -/
def Classifier.parse_logprobs (exp : ℚ → ℚ) (batch_size : Nat)
    (logprobs : List TokenLogprob) : Option (List ℚ) :=
  let bps := logprobs.filterMap fun t =>
    if strHas t.token '1' || strHas t.token '0' then
      some (binaryProb exp t.top_logprobs)
    else none
  if bps.length = batch_size then some bps else none

/-! ## `Classifier._parse` -/

/-- `Classifier._parse` (classifier.py lines 126-141): extract the first
bracketed literal, `json.loads` it, assert its length equals `self.batch_size`,
then either compute soft probabilities from the log-probabilities or fill with
`None`.  Every raised exception (no regex match, `json` error, failed assert)
is embedded as `none`. -/
def Classifier.parse (exp : ℚ → ℚ) (batch_size : Nat) (string : String)
    (logprobs : Option (List TokenLogprob)) : Option (List Jv × List (Option ℚ)) :=
  match jsonLoadsFirstBracket string with
  | none => none
  | some predictions =>
    if predictions.length = batch_size then
      match logprobs with
      | none => some (predictions, List.replicate batch_size none)
      | some lps =>
        match Classifier.parse_logprobs exp batch_size lps with
        | none => none
        | some probs => some (predictions, probs.map some)
    else none

/-! ## `Classifier._build_prompt`, `_generate`, `_query`, `_batch` -/

/-- `Classifier._build_prompt` (classifier.py lines 178-191): one line
`Example {i}: {sample.text}` per sample, zero-indexed in batch order, joined by
newlines and passed to the prompt template. -/
def Classifier.build_prompt (c : Classifier) (explanation : String)
    (batch : List Sample) : String :=
  let examples := String.intercalate "\n"
    (batch.enum.map fun p => "Example " ++ toString p.1 ++ ": " ++ p.2.text)
  c.promptTemplate explanation examples

/-- Python `==` between a decoded JSON value and a `bool` — the comparison
`prediction == result.ground_truth` in `_generate`.  `bool` is a subclass of
`int` in Python, so an `int` or `float` prediction compares numerically to
`int(b)` (`True == 1`, `1.0 == True`), a `bool` compares as a boolean, and a
string, `None`, `NaN`, an infinity, a list or a dict is never equal to a
`bool`. -/
def pyEqBool (v : Jv) (b : Bool) : Bool :=
  match v with
  | Jv.int n => n == (if b then 1 else 0)
  | Jv.float q => q == (if b then 1 else 0)
  | Jv.bool b2 => b2 == b
  | _ => false

/-- The body of the result-assembly loop of `Classifier._generate`
(classifier.py lines 111-122) for one `(sample, prediction, probability)`
triple: write `prediction`, compute `correct`, attach `probability` when it is
not `None`, and attach the rendered text in verbose mode. -/
def Classifier.assembleOne (c : Classifier) (s : Sample) (pred : Jv)
    (prob : Option ℚ) : ClassifierOutput :=
  let r0 := s.data
  let r1 := { r0 with prediction := pred, correct := pyEqBool pred r0.ground_truth }
  let r2 := match prob with
    | some p => { r1 with probability := some p }
    | none => r1
  if c.verbose then { r2 with text := some s.text } else r2

/-- Python's `zip` over three lists: truncates to the shortest. -/
def zip3 {α β γ : Type _} : List α → List β → List γ → List (α × β × γ)
  | a :: as, b :: bs, g :: gs => (a, b, g) :: zip3 as bs gs
  | _, _, _ => []

/-- The result-assembly loop of `Classifier._generate` (classifier.py lines
107-123): `for sample, prediction, probability in zip(batch, predictions,
probabilities)`. -/
def Classifier.assemble (c : Classifier) (batch : List Sample)
    (predictions : List Jv) (probabilities : List (Option ℚ)) :
    List ClassifierOutput :=
  (zip3 batch predictions probabilities).map fun t =>
    Classifier.assembleOne c t.1 t.2.1 t.2.2

/-- The substituted failure lists of `Classifier._generate` (classifier.py
lines 94-96 and 103-105): `predictions = [-1] * self.batch_size` and
`probabilities = [-1] * self.batch_size`. -/
def Classifier.undetermined (c : Classifier) : List Jv × List (Option ℚ) :=
  (List.replicate c.batch_size (Jv.int (-1)),
   List.replicate c.batch_size (some (-1)))

/-- `Classifier._generate` (classifier.py lines 78-123): build the prompt,
call the client — a raised client error is caught and becomes `response =
None` — then parse, substituting the undetermined lists on a `None` response
or a parsing exception, and assemble the per-sample results.  (When `log_prob`
is set the source also adds `logprobs=True, top_logprobs=5` to the generation
kwargs; those are forwarded opaquely to the client and are absorbed into the
`client` function.) -/
def Classifier.generate (exp : ℚ → ℚ) (c : Classifier) (explanation : String)
    (batch : List Sample) : List ClassifierOutput :=
  let prompt := Classifier.build_prompt c explanation batch
  let response : Option Response :=
    match c.client prompt with
    | Except.ok r => some r
    | Except.error _ => none
  let pp : List Jv × List (Option ℚ) :=
    match response with
    | none => Classifier.undetermined c
    | some r =>
      match Classifier.parse exp c.batch_size r.text
          (if c.log_prob then r.logprobs else none) with
      | some pq => pq
      | none => Classifier.undetermined c
  Classifier.assemble c batch pp.1 pp.2

/-- `Classifier._query` (classifier.py lines 57-75): one task per batch,
gathered in task order, concatenated with `sum(results, [])`.  Each task is a
pure function of its own batch, so the admission semaphore and completion
order do not affect the value; `Classifier.queryWithCompletionOrder` below
makes the completion-order independence explicit. -/
def Classifier.query (exp : ℚ → ℚ) (c : Classifier) (explanation : String)
    (batches : List (List Sample)) : List ClassifierOutput :=
  (batches.map (Classifier.generate exp c explanation)).flatten

/-- The capacity of the admission semaphore created in `Classifier._query`
(classifier.py line 65, `sem = asyncio.Semaphore(1)`).  The literal `1` does
not read the classifier configuration, which is why this definition ignores
its argument. -/
def Classifier.semCapacity (_c : Classifier) : Nat := 1

/-- `asyncio.gather` with an explicit completion order: task results land in
a slot table as they complete (`order` lists task indices in completion
order), and the gathered list reads the table in task-submission order.
A slot never written reads as `[]`. -/
def gatherByOrder (tasks : Nat → List ClassifierOutput) (n : Nat)
    (order : List Nat) : List (List ClassifierOutput) :=
  let final : Nat → Option (List ClassifierOutput) :=
    order.foldl (fun acc i => Function.update acc i (some (tasks i))) (fun _ => none)
  (List.range n).map fun i => (final i).getD []

/-- `Classifier._query` with the completion order of its batch tasks made
explicit: the per-batch tasks are pure, complete in the order given, and are
concatenated in submission order. -/
def Classifier.queryWithCompletionOrder (exp : ℚ → ℚ) (c : Classifier)
    (explanation : String) (batches : List (List Sample)) (order : List Nat) :
    List ClassifierOutput :=
  (gatherByOrder
    (fun i => Classifier.generate exp c explanation (batches.getD i []))
    batches.length order).flatten

/-- Python `range(start, stop, step)` for a positive step. -/
def pyRange (start stop step : Nat) : List Nat :=
  if h : 0 < step ∧ start < stop then start :: pyRange (start + step) stop step
  else []
termination_by stop - start
decreasing_by omega

/-- `Classifier._batch` (classifier.py lines 193-197):
`[samples[i : i + batch_size] for i in range(0, len(samples), batch_size)]`;
`batch_size` is the `self.batch_size` field. -/
def Classifier.batch {α : Type _} (batch_size : Nat) (samples : List α) :
    List (List α) :=
  (pyRange 0 samples.length batch_size).map fun i =>
    (samples.drop i).take batch_size

/-! ## `sae_auto_interp/features/samplers.py` -/

/-- An example of a feature record as the samplers see it: an opaque identity
and the maximal activation used for quantile bucketing
(`sae_auto_interp/features/features.py` is out of scope beyond this). -/
structure Example where
  idx : Nat
  max_activation : ℚ
  deriving DecidableEq, Repr

/-- The fields of `FeatureRecord` read and written by the samplers and the
recall preparer: `examples`, `random_examples`, `test`, `train`, and the
explanation string. -/
structure FeatureRecord where
  explanation : String := ""
  examples : List Example := []
  random_examples : List Example := []
  test : List (List Example) := []
  train : List Example := []
  deriving DecidableEq, Repr

/-- The bucket index the loop of `split_activation_quantiles` (samplers.py
lines 13-19) assigns to one example: the first threshold at or above its
`max_activation`, else — through the `for`/`else` — the last bucket. -/
def bucketIdx (thresholds : List ℚ) (n_quantiles : Nat) (e : Example) : Nat :=
  match thresholds.findIdx? (fun t => e.max_activation ≤ t) with
  | some i => i
  | none => n_quantiles - 1

/-- `split_activation_quantiles` (samplers.py lines 7-21): thresholds are
`max_activation * i / n_quantiles` for `i = 1 .. n_quantiles - 1` where
`max_activation` is that of `examples[0]`; each example goes to the bucket of
its first reachable threshold, else the last bucket.  Appending each example
in order to its bucket builds, for each bucket index, the in-order sublist of
the examples assigned to it — the `filter` below.  `none` embeds the
`IndexError`s of `examples[0]` on an empty pool and of `quantiles[-1]` when
`n_quantiles = 0`. -/
def split_activation_quantiles (examples : List Example) (n_quantiles : Nat) :
    Option (List (List Example)) :=
  match examples with
  | [] => none
  | e0 :: _ =>
    if n_quantiles = 0 then none
    else
      let max_activation := e0.max_activation
      let thresholds := (List.range' 1 (n_quantiles - 1)).map
        fun i => max_activation * (i : ℚ) / (n_quantiles : ℚ)
      some ((List.range n_quantiles).map
        fun j => examples.filter fun e => bucketIdx thresholds n_quantiles e = j)

/-- `check_quantile` (samplers.py lines 33-36): raise `ValueError` when the
quantile holds fewer examples than required. -/
def check_quantile (quantile : List Example) (n_test : Nat) : Except String Unit :=
  if quantile.length < n_test then Except.error "Quantile has too few examples"
  else Except.ok ()

/-- The test-quantile loop of `random_and_activation_quantiles` (samplers.py
lines 55-57): for each quantile in order, `check_quantile` — whose raised
`ValueError` propagates — then `random.sample(quantile, n_test)`.
`sampleFn` abstracts the seeded `random.sample`. -/
def sampleTestQuantiles (sampleFn : List Example → Nat → List Example)
    (quantiles : List (List Example)) (n_test : Nat) :
    Except String (List (List Example)) :=
  match quantiles with
  | [] => Except.ok []
  | q :: rest =>
    match check_quantile q n_test with
    | Except.error e => Except.error e
    | Except.ok _ =>
      let s := sampleFn q n_test
      match sampleTestQuantiles sampleFn rest n_test with
      | Except.error e => Except.error e
      | Except.ok tl => Except.ok (s :: tl)

/-- `random_and_activation_quantiles` (samplers.py lines 39-60): split the
example pool by activation quantiles, draw the training examples from the
first bucket, and for every remaining (test) quantile check its size and draw
`n_test` examples; the checked record is returned with `train` and `test`
set.  `sampleFn` abstracts `random.sample` (on the training draw the source
relies on `random.sample` itself raising when the bucket is too small; the
abstraction keeps that call total, which the claims do not touch). -/
def random_and_activation_quantiles (sampleFn : List Example → Nat → List Example)
    (record : FeatureRecord) (n_train n_test n_quantiles : Nat) :
    Except String FeatureRecord :=
  match split_activation_quantiles record.examples n_quantiles with
  | none => Except.error "IndexError"
  | some activation_quantiles =>
    match activation_quantiles with
    | [] => Except.error "IndexError"
    | q0 :: test_quantiles =>
      let train_examples := sampleFn q0 n_train
      match sampleTestQuantiles sampleFn test_quantiles n_test with
      | Except.error e => Except.error e
      | Except.ok test_examples =>
        Except.ok { record with train := train_examples, test := test_examples }

/-! ## `sae_auto_interp/scorers/classifier/recall.py` -/

/-- Modelled from the spec: `examples_to_samples` from the missing
`sample.py` (spec §4.1) — convert each example of a group into a `Sample`
whose `distance` and `ground_truth` are the given provenance tags and whose
text is produced by the tokenizer-aware renderer (`render` abstracts the
tokenizer, treated as opaque by the spec). -/
def examples_to_samples (render : Example → String) (examples : List Example)
    (distance : Int) (ground_truth : Bool) : List Sample :=
  examples.map fun e =>
    { text := render e, data := { ground_truth := ground_truth, distance := distance } }

/-- `RecallScorer._prepare` (recall.py lines 35-61): the random negatives with
`distance = -1, ground_truth = False`, extended, for each 0-indexed test group
`i`, by that group with `distance = i + 1, ground_truth = True`. -/
def RecallScorer.prepare (render : Example → String) (record : FeatureRecord) :
    List Sample :=
  record.test.enum.foldl
    (fun samples p =>
      samples ++ examples_to_samples render p.2 ((p.1 : Int) + 1) true)
    (examples_to_samples render record.random_examples (-1) false)

/-! ## Lemmas about `pyRange` and `Classifier.batch` -/

lemma pyRange_of_lt {start stop step : Nat} (hstep : 0 < step) (h : start < stop) :
    pyRange start stop step = start :: pyRange (start + step) stop step := by
  rw [pyRange.eq_def]
  simp [hstep, h]

lemma pyRange_of_ge {start stop step : Nat} (h : stop ≤ start) :
    pyRange start stop step = [] := by
  rw [pyRange.eq_def, dif_neg]
  omega

/-- The combined partition facts about the slice list of `Classifier._batch`,
generalized over the start offset for the induction. -/
lemma batch_slices_spec {α : Type _} (b : Nat) (hb : 0 < b) :
    ∀ (fuel : Nat) (s : List α) (start : Nat), s.length - start ≤ fuel →
      (((pyRange start s.length b).map fun i => (s.drop i).take b).flatten
          = s.drop start)
      ∧ (∀ c ∈ ((pyRange start s.length b).map fun i => (s.drop i).take b).dropLast,
          c.length = b)
      ∧ (∀ l, ((pyRange start s.length b).map fun i => (s.drop i).take b).getLast?
            = some l →
          l.length = if (s.length - start) % b = 0 then b else (s.length - start) % b)
      ∧ (∀ c ∈ (pyRange start s.length b).map fun i => (s.drop i).take b, c ≠ []) := by
  intro fuel
  induction fuel with
  | zero =>
    intro s start hle
    have hge : s.length ≤ start := by omega
    rw [pyRange_of_ge hge]
    simp [List.drop_eq_nil_of_le hge]
  | succ n ih =>
    intro s start hle
    by_cases hlt : start < s.length
    · rw [pyRange_of_lt hb hlt]
      have htake : ((s.drop start).take b).length = min b (s.length - start) := by
        rw [List.length_take, List.length_drop]
      obtain ⟨hfl, hmid, hlast, hne⟩ := ih s (start + b) (by omega)
      refine ⟨?_, ?_, ?_, ?_⟩
      · simp only [List.map_cons, List.flatten_cons, hfl]
        exact List.drop_take_append_drop s start b
      · -- every chunk but the last has length exactly b
        by_cases htail : s.length ≤ start + b
        · rw [pyRange_of_ge htail]
          simp
        · rw [pyRange_of_lt hb (by omega : start + b < s.length)] at hmid ⊢
          intro c hc
          simp only [List.map_cons, List.dropLast_cons₂, List.mem_cons] at hc
          rcases hc with rfl | hc
          · rw [htake]; omega
          · exact hmid c (by simpa using hc)
      · intro l hl
        by_cases htail : s.length ≤ start + b
        · rw [pyRange_of_ge htail] at hl
          simp only [List.map_cons, List.map_nil, List.getLast?_singleton,
            Option.some.injEq] at hl
          subst hl
          rw [htake]
          rcases Nat.lt_or_ge (s.length - start) b with hc | hc
          · have hne0 : s.length - start ≠ 0 := by omega
            rw [Nat.mod_eq_of_lt hc, if_neg hne0]
            omega
          · have heq : s.length - start = b := by omega
            rw [heq, Nat.mod_self, if_pos rfl]
            omega
        · have hcons : pyRange (start + b) s.length b
              = (start + b) :: pyRange (start + b + b) s.length b :=
            pyRange_of_lt hb (by omega)
          rw [hcons, List.map_cons, List.map_cons, List.getLast?_cons_cons] at hl
          have hstep := hlast l (by rw [hcons, List.map_cons]; exact hl)
          rw [hstep]
          have hmod : (s.length - (start + b)) % b = (s.length - start) % b := by
            have h1 : s.length - start = (s.length - (start + b)) + b := by omega
            rw [h1, Nat.add_mod_right]
          rw [hmod]
      · intro c hc
        simp only [List.map_cons, List.mem_cons] at hc
        rcases hc with rfl | hc
        · intro h
          rw [← List.length_eq_zero, htake] at h
          omega
        · exact hne c hc
    · rw [pyRange_of_ge (by omega)]
      simp [List.drop_eq_nil_of_le (by omega : s.length ≤ start)]

/-- C4.  For every sample list `S` and every `batchSize b > 0`,
`batch(S, b)` partitions `S` exactly: the concatenation of the chunks
reconstructs `S` in order, every chunk except possibly the last has length
`b`, the last chunk has length `len(S) mod b` if that is nonzero and `b`
otherwise, and no chunk is empty. -/
theorem batch_partitions {α : Type _} (S : List α) (b : Nat) (hb : 0 < b) :
    (Classifier.batch b S).flatten = S
    ∧ (∀ c ∈ (Classifier.batch b S).dropLast, c.length = b)
    ∧ (∀ l, (Classifier.batch b S).getLast? = some l →
        l.length = if S.length % b = 0 then b else S.length % b)
    ∧ (∀ c ∈ Classifier.batch b S, c ≠ []) := by
  obtain ⟨hfl, hmid, hlast, hne⟩ := batch_slices_spec b hb S.length S 0 (by omega)
  simp only [Nat.sub_zero, List.drop_zero] at hfl hlast
  exact ⟨hfl, hmid, hlast, hne⟩

/-- Witness for C4 at `S = [10, 20, 30, 40, 50]`, `b = 2`. -/
theorem batch_partitions_witness :
    (0 < 2)
    ∧ ((Classifier.batch 2 [10, 20, 30, 40, 50]).flatten = [10, 20, 30, 40, 50]
      ∧ (∀ c ∈ (Classifier.batch 2 [10, 20, 30, 40, 50]).dropLast, c.length = 2)
      ∧ (∀ l, (Classifier.batch 2 [10, 20, 30, 40, 50]).getLast? = some l →
          l.length = if ([10, 20, 30, 40, 50] : List Nat).length % 2 = 0 then 2
            else ([10, 20, 30, 40, 50] : List Nat).length % 2)
      ∧ (∀ c ∈ Classifier.batch 2 [10, 20, 30, 40, 50], c ≠ [])) :=
  ⟨by decide, batch_partitions [10, 20, 30, 40, 50] 2 (by decide)⟩

/-! ## Lemmas about the assembler and the generation paths -/

lemma assembleOne_prediction (c : Classifier) (s : Sample) (pred : Jv)
    (prob : Option ℚ) : (Classifier.assembleOne c s pred prob).prediction = pred := by
  unfold Classifier.assembleOne
  cases prob <;> by_cases hv : c.verbose <;> simp [hv]

lemma assembleOne_identity (c : Classifier) (s : Sample) (pred : Jv)
    (prob : Option ℚ) :
    (Classifier.assembleOne c s pred prob).ground_truth = s.data.ground_truth
    ∧ (Classifier.assembleOne c s pred prob).distance = s.data.distance := by
  unfold Classifier.assembleOne
  cases prob <;> by_cases hv : c.verbose <;> simp [hv]

lemma assembleOne_probability (c : Classifier) (s : Sample) (pred : Jv)
    (prob : Option ℚ) :
    (Classifier.assembleOne c s pred prob).probability
      = match prob with
        | some p => some p
        | none => s.data.probability := by
  unfold Classifier.assembleOne
  cases prob <;> by_cases hv : c.verbose <;> simp [hv]

lemma zip3_mem {α β γ : Type _} :
    ∀ {as : List α} {bs : List β} {cs : List γ} {t : α × β × γ},
      t ∈ zip3 as bs cs → t.1 ∈ as ∧ t.2.1 ∈ bs ∧ t.2.2 ∈ cs := by
  intro as
  induction as with
  | nil => intro bs cs t ht; simp [zip3] at ht
  | cons a at' ih =>
    intro bs cs t ht
    cases bs with
    | nil => simp [zip3] at ht
    | cons b bt =>
      cases cs with
      | nil => simp [zip3] at ht
      | cons g gt =>
        simp only [zip3, List.mem_cons] at ht
        rcases ht with rfl | ht
        · simp
        · obtain ⟨h1, h2, h3⟩ := ih ht
          exact ⟨List.mem_cons_of_mem _ h1, List.mem_cons_of_mem _ h2,
            List.mem_cons_of_mem _ h3⟩

/-- Core facts about the assembly loop when the prediction and probability
lists are at least as long as the batch (as on every path of `_generate`):
one output per sample, in batch order, carrying the zipped prediction. -/
lemma assemble_spec (c : Classifier) :
    ∀ (batch : List Sample) (preds : List Jv) (probs : List (Option ℚ)),
      batch.length ≤ preds.length → batch.length ≤ probs.length →
      (Classifier.assemble c batch preds probs).length = batch.length
      ∧ (Classifier.assemble c batch preds probs).map ClassifierOutput.prediction
          = preds.take batch.length
      ∧ (Classifier.assemble c batch preds probs).map
            (fun o => (o.ground_truth, o.distance))
          = batch.map fun s => (s.data.ground_truth, s.data.distance) := by
  intro batch
  induction batch with
  | nil =>
    intro preds probs _ _
    simp [Classifier.assemble, zip3]
  | cons s bt ih =>
    intro preds probs h1 h2
    cases preds with
    | nil => simp at h1
    | cons p pt =>
      cases probs with
      | nil => simp at h2
      | cons q qt =>
        simp only [List.length_cons, Nat.add_le_add_iff_right] at h1 h2
        obtain ⟨l1, l2, l3⟩ := ih pt qt h1 h2
        simp only [Classifier.assemble, zip3, List.map_cons] at l1 l2 l3 ⊢
        refine ⟨by simp [l1], ?_, ?_⟩
        · simp only [List.length_cons, List.take_succ_cons, assembleOne_prediction]
          rw [l2]
        · rw [l3, (assembleOne_identity c s p q).1, (assembleOne_identity c s p q).2]

/-- Assembling against the substituted constant failure lists maps each
sample of the batch (one result per sample) to its failure output. -/
lemma assemble_replicate (c : Classifier) :
    ∀ (batch : List Sample) (m : Nat), batch.length ≤ m →
      ∀ (pred : Jv) (prob : Option ℚ),
      Classifier.assemble c batch (List.replicate m pred) (List.replicate m prob)
        = batch.map fun s => Classifier.assembleOne c s pred prob := by
  intro batch
  induction batch with
  | nil => intro m _ pred prob; simp [Classifier.assemble, zip3]
  | cons s bt ih =>
    intro m hm pred prob
    cases m with
    | zero => simp at hm
    | succ k =>
      simp only [List.length_cons, Nat.add_le_add_iff_right] at hm
      simp only [List.replicate_succ, Classifier.assemble, zip3, List.map_cons]
      have := ih k hm pred prob
      simp only [Classifier.assemble] at this
      rw [this]

lemma parse_logprobs_length (exp : ℚ → ℚ) (bs : Nat) (lps : List TokenLogprob)
    (probs : List ℚ) (h : Classifier.parse_logprobs exp bs lps = some probs) :
    probs.length = bs := by
  simp only [Classifier.parse_logprobs] at h
  split at h
  · cases h
    assumption
  · cases h

lemma parse_some_lengths (exp : ℚ → ℚ) (bs : Nat) (s : String)
    (lp : Option (List TokenLogprob)) (p : List Jv) (q : List (Option ℚ))
    (h : Classifier.parse exp bs s lp = some (p, q)) :
    p.length = bs ∧ q.length = bs := by
  unfold Classifier.parse at h
  split at h
  · cases h
  · rename_i preds hj
    split at h
    · rename_i hlen
      split at h
      · cases h
        simp [hlen]
      · rename_i lps
        split at h
        · cases h
        · rename_i probs hpl
          cases h
          simp [hlen, List.length_map, parse_logprobs_length exp bs lps probs hpl]
    · cases h

/-- The `(predictions, probabilities)` pair `_generate` ends up assembling,
as a function of the client's answer to the prompt. -/
def Classifier.rawPair (exp : ℚ → ℚ) (c : Classifier) (prompt : String) :
    List Jv × List (Option ℚ) :=
  match c.client prompt with
  | Except.error _ => Classifier.undetermined c
  | Except.ok r =>
    match Classifier.parse exp c.batch_size r.text
        (if c.log_prob then r.logprobs else none) with
    | some pq => pq
    | none => Classifier.undetermined c

lemma generate_eq (exp : ℚ → ℚ) (c : Classifier) (expl : String)
    (batch : List Sample) :
    Classifier.generate exp c expl batch
      = Classifier.assemble c batch
          (Classifier.rawPair exp c (Classifier.build_prompt c expl batch)).1
          (Classifier.rawPair exp c (Classifier.build_prompt c expl batch)).2 := by
  simp only [Classifier.generate, Classifier.rawPair]
  cases hc : c.client (Classifier.build_prompt c expl batch) with
  | error e => rfl
  | ok r =>
    cases hp : Classifier.parse exp c.batch_size r.text
        (if c.log_prob then r.logprobs else none) with
    | none => rfl
    | some pq => rfl

lemma rawPair_lengths (exp : ℚ → ℚ) (c : Classifier) (prompt : String) :
    (Classifier.rawPair exp c prompt).1.length = c.batch_size
    ∧ (Classifier.rawPair exp c prompt).2.length = c.batch_size := by
  unfold Classifier.rawPair
  cases hc : c.client prompt with
  | error e => simp [Classifier.undetermined]
  | ok r =>
    cases hp : Classifier.parse exp c.batch_size r.text
        (if c.log_prob then r.logprobs else none) with
    | none => simp [hp, Classifier.undetermined]
    | some pq =>
      obtain ⟨h1, h2⟩ := parse_some_lengths exp c.batch_size r.text _ pq.1 pq.2
        (by rw [hp, Prod.mk.eta])
      simp [hp, h1, h2]

/-- C10.  For every batch no longer than the configured `batch_size`, the
result list produced by `_generate` for that batch has exactly `len(batch)`
entries — one per sample, in batch order — on every path: the internal
prediction/probability lists always carry `batch_size` entries and the `zip`
over the batch truncates them to the batch's actual length. -/
theorem generate_one_result_per_sample (exp : ℚ → ℚ) (c : Classifier)
    (expl : String) (batch : List Sample) (hlen : batch.length ≤ c.batch_size) :
    (Classifier.generate exp c expl batch).length = batch.length
    ∧ (Classifier.generate exp c expl batch).map
          (fun o => (o.ground_truth, o.distance))
        = batch.map fun s => (s.data.ground_truth, s.data.distance) := by
  obtain ⟨hr1, hr2⟩ := rawPair_lengths exp c (Classifier.build_prompt c expl batch)
  rw [generate_eq]
  obtain ⟨l1, l2, l3⟩ := assemble_spec c batch _ _
    (by rw [hr1]; exact hlen) (by rw [hr2]; exact hlen)
  exact ⟨l1, l3⟩

/-- Witness for C10: a short final batch (one sample) under `batch_size = 2`,
on the parse-failure path (the response `"[1]"` has the wrong length for the
configured batch size). -/
theorem generate_one_result_per_sample_witness :
    (([⟨"t", { ground_truth := true, distance := 1 }⟩] : List Sample).length ≤ 2)
    ∧ ((Classifier.generate (fun q => q)
          ⟨fun _ => Except.ok ⟨"[1]", none⟩, false, 2, false, fun _ e => e⟩
          "e" [⟨"t", { ground_truth := true, distance := 1 }⟩]).length
        = ([⟨"t", { ground_truth := true, distance := 1 }⟩] : List Sample).length
      ∧ (Classifier.generate (fun q => q)
          ⟨fun _ => Except.ok ⟨"[1]", none⟩, false, 2, false, fun _ e => e⟩
          "e" [⟨"t", { ground_truth := true, distance := 1 }⟩]).map
            (fun o => (o.ground_truth, o.distance))
        = ([⟨"t", { ground_truth := true, distance := 1 }⟩] : List Sample).map
            fun s => (s.data.ground_truth, s.data.distance)) :=
  ⟨by decide,
    generate_one_result_per_sample (fun q => q)
      ⟨fun _ => Except.ok ⟨"[1]", none⟩, false, 2, false, fun _ e => e⟩
      "e" [⟨"t", { ground_truth := true, distance := 1 }⟩] (by decide)⟩

/-- C1.  For every batch whose generation-client call raises, `_generate`
substitutes one undetermined result (`prediction = -1`) per sample of the
batch; the exception is caught inside `_generate` (its translation is total),
and the dispatcher's value is the concatenation of per-batch results, each a
function of its own batch alone, so sibling batches are unaffected. -/
theorem client_error_batch_undetermined (exp : ℚ → ℚ) (c : Classifier)
    (expl : String) (batches : List (List Sample)) (batch : List Sample)
    (hmem : batch ∈ batches)
    (herr : ∃ e, c.client (Classifier.build_prompt c expl batch) = Except.error e)
    (hlen : batch.length ≤ c.batch_size) :
    Classifier.query exp c expl batches
        = (batches.map (Classifier.generate exp c expl)).flatten
    ∧ Classifier.generate exp c expl batch
        = batch.map (fun s => Classifier.assembleOne c s (Jv.int (-1)) (some (-1)))
    ∧ (∀ out ∈ Classifier.generate exp c expl batch, out.prediction = Jv.int (-1))
    ∧ (Classifier.generate exp c expl batch).length = batch.length := by
  obtain ⟨e, he⟩ := herr
  have hraw : Classifier.rawPair exp c (Classifier.build_prompt c expl batch)
      = Classifier.undetermined c := by
    unfold Classifier.rawPair
    rw [he]
  have hgen : Classifier.generate exp c expl batch
      = batch.map fun s => Classifier.assembleOne c s (Jv.int (-1)) (some (-1)) := by
    rw [generate_eq, hraw]
    exact assemble_replicate c batch c.batch_size hlen (Jv.int (-1)) (some (-1))
  refine ⟨rfl, hgen, ?_, ?_⟩
  · intro out hout
    rw [hgen] at hout
    obtain ⟨s, _, rfl⟩ := List.mem_map.mp hout
    exact assembleOne_prediction c s (Jv.int (-1)) (some (-1))
  · rw [hgen, List.length_map]

/-- Witness for C1: two one-sample batches under a client that raises on
every call; the failing batch's sole result is undetermined. -/
theorem client_error_batch_undetermined_witness :
    (([⟨"A", { ground_truth := true, distance := 1 }⟩] : List Sample)
        ∈ [[(⟨"A", { ground_truth := true, distance := 1 }⟩ : Sample)],
           [⟨"B", { ground_truth := false, distance := -1 }⟩]])
    ∧ (∃ e, (⟨fun _ => Except.error "boom", false, 1, false, fun _ ex => ex⟩ :
          Classifier).client
        (Classifier.build_prompt
          ⟨fun _ => Except.error "boom", false, 1, false, fun _ ex => ex⟩ "e"
          [⟨"A", { ground_truth := true, distance := 1 }⟩]) = Except.error e)
    ∧ (([⟨"A", { ground_truth := true, distance := 1 }⟩] : List Sample).length ≤ 1)
    ∧ (Classifier.query (fun q => q)
          ⟨fun _ => Except.error "boom", false, 1, false, fun _ ex => ex⟩ "e"
          [[⟨"A", { ground_truth := true, distance := 1 }⟩],
           [⟨"B", { ground_truth := false, distance := -1 }⟩]]
        = ([[(⟨"A", { ground_truth := true, distance := 1 }⟩ : Sample)],
            [⟨"B", { ground_truth := false, distance := -1 }⟩]].map
            (Classifier.generate (fun q => q)
              ⟨fun _ => Except.error "boom", false, 1, false, fun _ ex => ex⟩
              "e")).flatten
      ∧ Classifier.generate (fun q => q)
            ⟨fun _ => Except.error "boom", false, 1, false, fun _ ex => ex⟩ "e"
            [⟨"A", { ground_truth := true, distance := 1 }⟩]
          = ([⟨"A", { ground_truth := true, distance := 1 }⟩] : List Sample).map
              (fun s => Classifier.assembleOne
                ⟨fun _ => Except.error "boom", false, 1, false, fun _ ex => ex⟩
                s (Jv.int (-1)) (some (-1)))
      ∧ (∀ out ∈ Classifier.generate (fun q => q)
            ⟨fun _ => Except.error "boom", false, 1, false, fun _ ex => ex⟩ "e"
            [⟨"A", { ground_truth := true, distance := 1 }⟩],
          out.prediction = Jv.int (-1))
      ∧ (Classifier.generate (fun q => q)
            ⟨fun _ => Except.error "boom", false, 1, false, fun _ ex => ex⟩ "e"
            [⟨"A", { ground_truth := true, distance := 1 }⟩]).length
          = ([⟨"A", { ground_truth := true, distance := 1 }⟩] : List Sample).length) :=
  ⟨by decide, ⟨"boom", rfl⟩,
    by decide,
    client_error_batch_undetermined (fun q => q)
      ⟨fun _ => Except.error "boom", false, 1, false, fun _ ex => ex⟩ "e"
      [[⟨"A", { ground_truth := true, distance := 1 }⟩],
       [⟨"B", { ground_truth := false, distance := -1 }⟩]]
      [⟨"A", { ground_truth := true, distance := 1 }⟩]
      (by decide) ⟨"boom", rfl⟩ (by decide)⟩

/-- The text-only behaviour of `_parse`: succeed exactly when the first
bracketed literal is a JSON array of length `self.batch_size`. -/
lemma parse_text_eq (exp : ℚ → ℚ) (bs : Nat) (s : String) :
    Classifier.parse exp bs s none
      = match jsonLoadsFirstBracket s with
        | none => none
        | some preds =>
          if preds.length = bs then some (preds, List.replicate bs none)
          else none := by
  unfold Classifier.parse
  cases hj : jsonLoadsFirstBracket s with
  | none => rfl
  | some preds =>
    by_cases hp : preds.length = bs
    · simp [hp]
    · simp [hp]

/-- C2 (amended).  For every batch whose client call returns text `s` (and no
log-probabilities), the predictions written to the batch are: the parsed
values when the first bracketed literal of `s` is a JSON array — of arbitrary
JSON values, since `json.loads` does not enforce the `list[int]` annotation —
whose length equals the **configured** `batch_size` (truncated by the `zip` to
the batch's actual length), and `-1` for every sample of the batch otherwise —
in particular a short final batch can never parse successfully against its own
length, only against `batch_size`. -/
theorem parse_length_guard_amended (exp : ℚ → ℚ) (c : Classifier)
    (expl : String) (batch : List Sample) (s : String)
    (hresp : c.client (Classifier.build_prompt c expl batch)
      = Except.ok { text := s, logprobs := none })
    (hlen : batch.length ≤ c.batch_size) :
    (Classifier.generate exp c expl batch).map ClassifierOutput.prediction
      = match jsonLoadsFirstBracket s with
        | some preds =>
          if preds.length = c.batch_size then preds.take batch.length
          else List.replicate batch.length (Jv.int (-1))
        | none => List.replicate batch.length (Jv.int (-1)) := by
  obtain ⟨hr1, hr2⟩ := rawPair_lengths exp c (Classifier.build_prompt c expl batch)
  rw [generate_eq]
  obtain ⟨l1, l2, l3⟩ := assemble_spec c batch _ _
    (by rw [hr1]; exact hlen) (by rw [hr2]; exact hlen)
  rw [l2]
  have hrp : Classifier.rawPair exp c (Classifier.build_prompt c expl batch)
      = match jsonLoadsFirstBracket s with
        | some preds =>
          if preds.length = c.batch_size then (preds, List.replicate c.batch_size none)
          else Classifier.undetermined c
        | none => Classifier.undetermined c := by
    unfold Classifier.rawPair
    rw [hresp]
    show (match Classifier.parse exp c.batch_size s
        (if c.log_prob then none else none) with
      | some pq => pq
      | none => Classifier.undetermined c) = _
    rw [ite_self, parse_text_eq]
    cases hj : jsonLoadsFirstBracket s with
    | none => rfl
    | some preds =>
      by_cases hp : preds.length = c.batch_size
      · simp [hp]
      · simp [hp]
  rw [hrp]
  cases hj : jsonLoadsFirstBracket s with
  | none =>
    simp [Classifier.undetermined, List.take_replicate, min_eq_left hlen]
  | some preds =>
    by_cases hp : preds.length = c.batch_size
    · simp [hp]
    · simp [hp, Classifier.undetermined, List.take_replicate, min_eq_left hlen]

/-- Witness for C2 (amended): configured `batch_size = 2`, an actual batch of
one sample, response text `"[0.5, 1.5]"` — a JSON array of **floats**, which
`json.loads` decodes and the length guard passes, so the batch's single
sample receives the float prediction `0.5`. -/
theorem parse_length_guard_amended_witness :
    ((⟨fun _ => Except.ok ⟨"[0.5, 1.5]", none⟩, false, 2, false, fun _ ex => ex⟩ :
        Classifier).client
      (Classifier.build_prompt
        ⟨fun _ => Except.ok ⟨"[0.5, 1.5]", none⟩, false, 2, false, fun _ ex => ex⟩
        "e" [⟨"t", { ground_truth := true, distance := 1 }⟩])
      = Except.ok { text := "[0.5, 1.5]", logprobs := none })
    ∧ (([⟨"t", { ground_truth := true, distance := 1 }⟩] : List Sample).length ≤ 2)
    ∧ (Classifier.generate (fun q => q)
          ⟨fun _ => Except.ok ⟨"[0.5, 1.5]", none⟩, false, 2, false, fun _ ex => ex⟩
          "e" [⟨"t", { ground_truth := true, distance := 1 }⟩]).map
          ClassifierOutput.prediction
      = match jsonLoadsFirstBracket "[0.5, 1.5]" with
        | some preds =>
          if preds.length = 2 then
            preds.take ([⟨"t", { ground_truth := true, distance := 1 }⟩] : List Sample).length
          else List.replicate ([⟨"t", { ground_truth := true, distance := 1 }⟩] : List Sample).length (Jv.int (-1))
        | none => List.replicate ([⟨"t", { ground_truth := true, distance := 1 }⟩] : List Sample).length (Jv.int (-1)) :=
  ⟨rfl, by decide,
    parse_length_guard_amended (fun q => q)
      ⟨fun _ => Except.ok ⟨"[0.5, 1.5]", none⟩, false, 2, false, fun _ ex => ex⟩
      "e" [⟨"t", { ground_truth := true, distance := 1 }⟩] "[0.5, 1.5]" rfl (by decide)⟩

/-- Counterexample to C2 as stated: with configured `batch_size = 2` and an
actual (final, short) batch of one sample, the response `"[0, 1]"` — whose
bracketed array has length 2 ≠ 1 = the batch's size — parses successfully and
assigns the sample prediction `0`, where the claim demands a parse failure
(length must equal the actual batch size) mapping the sample to `-1`; and the
response `"[0.5, 1.5]"`, which is not an integer array at all, also parses
against the configured size, where the claim requires an integer array. -/
theorem parse_length_checks_configured_size_cex :
    (Classifier.generate (fun q => q)
        ⟨fun _ => Except.ok ⟨"[0, 1]", none⟩, false, 2, false, fun _ ex => ex⟩
        "e" [⟨"t", { ground_truth := true, distance := 1 }⟩]).map
        ClassifierOutput.prediction = [Jv.int 0]
    ∧ Classifier.parse (fun q => q) 2 "[0, 1]" none
        = some ([Jv.int 0, Jv.int 1], [none, none])
    ∧ ([Jv.int 0, Jv.int 1]).length
        ≠ ([⟨"t", { ground_truth := true, distance := 1 }⟩] : List Sample).length
    ∧ (Classifier.parse (fun q => q) 2 "[0.5, 1.5]" none).isSome = true := by
  refine ⟨by decide, by decide, by decide, by decide⟩

/-- Counterexample to C3 as stated: the admission capacity of `_query`'s
semaphore is the literal `1` and does not vary with any classifier
configuration — there is no pair of configurations with different capacities,
negating "the capacity is a configuration parameter ..., not hardcoded to 1"
(`Classifier.__init__` takes only `client`, `tokenizer`, `verbose`,
`batch_size`, `log_prob` and pass-through `generation_kwargs`; no concurrency
option exists). -/
theorem concurrency_capacity_not_configurable :
    (∀ c : Classifier, Classifier.semCapacity c = 1)
    ∧ ¬ ∃ c₁ c₂ : Classifier, Classifier.semCapacity c₁ ≠ Classifier.semCapacity c₂ := by
  refine ⟨fun _ => rfl, ?_⟩
  rintro ⟨c₁, c₂, h⟩
  exact h rfl

/-- C3 (amended): the number of generation calls in flight is gated by an
admission semaphore whose capacity is hardcoded to `1` (strictly sequential
dispatch) for every classifier configuration; the capacity is not a
configuration parameter. -/
theorem concurrency_capacity_one :
    ∀ c : Classifier, Classifier.semCapacity c = 1
      ∧ ∀ c' : Classifier, Classifier.semCapacity c = Classifier.semCapacity c' :=
  fun _ => ⟨rfl, fun _ => rfl⟩

/-! ## Completion-order independence of the dispatcher -/

lemma foldl_update_eval (tasks : Nat → List ClassifierOutput) :
    ∀ (order : List Nat) (acc : Nat → Option (List ClassifierOutput)) (i : Nat),
      (order.foldl (fun a j => Function.update a j (some (tasks j))) acc) i
        = if i ∈ order then some (tasks i) else acc i := by
  intro order
  induction order with
  | nil => intro acc i; simp
  | cons j rest ih =>
    intro acc i
    simp only [List.foldl_cons, List.mem_cons]
    rw [ih]
    by_cases hr : i ∈ rest
    · simp [hr]
    · by_cases hij : i = j
      · subst hij
        simp [hr, Function.update_apply]
      · simp [hr, hij, Function.update_apply]

lemma range_map_getD {α β : Type _} (f : α → β) (d : α) :
    ∀ l : List α,
      (List.range l.length).map (fun i => f (l.getD i d)) = l.map f := by
  intro l
  induction l with
  | nil => simp
  | cons a t ih =>
    simp only [List.length_cons, List.range_succ_eq_map, List.map_cons,
      List.getD_cons_zero, List.map_map]
    rw [show ((fun i => f ((a :: t).getD i d)) ∘ Nat.succ)
        = fun i => f (t.getD i d) from funext fun i => rfl, ih]

/-- C6.  For every batch list and every completion order that completes each
submitted task, the dispatched result is the concatenation of the per-batch
result sublists in original batch submission order — completion order is
irrelevant, and the output is a deterministic function of the (shuffled)
batch list. -/
theorem dispatch_order_deterministic (exp : ℚ → ℚ) (c : Classifier)
    (expl : String) (batches : List (List Sample)) (order : List Nat)
    (hcover : ∀ i, i < batches.length → i ∈ order) :
    Classifier.queryWithCompletionOrder exp c expl batches order
        = Classifier.query exp c expl batches
    ∧ Classifier.query exp c expl batches
        = (batches.map (Classifier.generate exp c expl)).flatten := by
  refine ⟨?_, rfl⟩
  unfold Classifier.queryWithCompletionOrder Classifier.query gatherByOrder
  congr 1
  have hmap : (List.range batches.length).map
        (fun i => ((order.foldl
          (fun a j => Function.update a j
            (some (Classifier.generate exp c expl (batches.getD j []))))
          (fun _ => none)) i).getD [])
      = (List.range batches.length).map
          fun i => Classifier.generate exp c expl (batches.getD i []) := by
    apply List.map_congr_left
    intro i hi
    rw [List.mem_range] at hi
    rw [foldl_update_eval]
    simp [hcover i hi]
  rw [hmap, range_map_getD]

/-- Witness for C6: two batches completed in reversed order `[1, 0]` produce
the same output as the sequential dispatch, in submission order. -/
theorem dispatch_order_deterministic_witness :
    (∀ i, i < ([[(⟨"A", { ground_truth := true, distance := 1 }⟩ : Sample)],
        [⟨"B", { ground_truth := false, distance := -1 }⟩]] :
        List (List Sample)).length → i ∈ [1, 0])
    ∧ (Classifier.queryWithCompletionOrder (fun q => q)
          ⟨fun _ => Except.ok ⟨"[1]", none⟩, false, 1, false, fun _ ex => ex⟩ "e"
          [[⟨"A", { ground_truth := true, distance := 1 }⟩],
           [⟨"B", { ground_truth := false, distance := -1 }⟩]] [1, 0]
        = Classifier.query (fun q => q)
            ⟨fun _ => Except.ok ⟨"[1]", none⟩, false, 1, false, fun _ ex => ex⟩ "e"
            [[⟨"A", { ground_truth := true, distance := 1 }⟩],
             [⟨"B", { ground_truth := false, distance := -1 }⟩]]
      ∧ Classifier.query (fun q => q)
            ⟨fun _ => Except.ok ⟨"[1]", none⟩, false, 1, false, fun _ ex => ex⟩ "e"
            [[⟨"A", { ground_truth := true, distance := 1 }⟩],
             [⟨"B", { ground_truth := false, distance := -1 }⟩]]
          = ([[(⟨"A", { ground_truth := true, distance := 1 }⟩ : Sample)],
              [⟨"B", { ground_truth := false, distance := -1 }⟩]].map
              (Classifier.generate (fun q => q)
                ⟨fun _ => Except.ok ⟨"[1]", none⟩, false, 1, false, fun _ ex => ex⟩
                "e")).flatten) :=
  ⟨by decide,
    dispatch_order_deterministic (fun q => q)
      ⟨fun _ => Except.ok ⟨"[1]", none⟩, false, 1, false, fun _ ex => ex⟩ "e"
      [[⟨"A", { ground_truth := true, distance := 1 }⟩],
       [⟨"B", { ground_truth := false, distance := -1 }⟩]] [1, 0] (by decide)⟩

/-! ## The soft-probability computation against the spec's words -/

/-- The per-token bucket sums exactly as the claim's words state them: the
exponentiated log-probabilities of **all** alternatives containing `'0'` sum
into `p0` and those of **all** alternatives containing `'1'` sum into `p1` —
an alternative containing both digits (such as `"10"`) lands in both
buckets. -/
def specPairInclusive (exp : ℚ → ℚ) (tls : List TopLogprob) : ℚ × ℚ :=
  (((tls.filter fun t => strHas t.token '0').map fun t => exp t.logprob).sum,
   ((tls.filter fun t => strHas t.token '1').map fun t => exp t.logprob).sum)

/-- The claim's per-token emission over the inclusive buckets. -/
def specEmitInclusive (exp : ℚ → ℚ) (tls : List TopLogprob) : ℚ :=
  let pp := specPairInclusive exp tls
  if pp.1 + pp.2 > 0 then pp.2 / (pp.1 + pp.2) else 0

/-- The whole soft-probability parse as the claim's words state it (inclusive
buckets), with the count check. -/
def specParseLogprobsInclusive (exp : ℚ → ℚ) (bs : Nat)
    (lps : List TokenLogprob) : Option (List ℚ) :=
  let vals := lps.filterMap fun t =>
    if strHas t.token '1' || strHas t.token '0' then
      some (specEmitInclusive exp t.top_logprobs)
    else none
  if vals.length = bs then some vals else none

/-- The per-token bucket sums as the `elif` of the source actually computes
them: alternatives containing `'0'` sum into `p0`, and alternatives containing
`'1'` **but not** `'0'` sum into `p1`. -/
def specPair (exp : ℚ → ℚ) (tls : List TopLogprob) : ℚ × ℚ :=
  (((tls.filter fun t => strHas t.token '0').map fun t => exp t.logprob).sum,
   ((tls.filter fun t => !strHas t.token '0' && strHas t.token '1').map
      fun t => exp t.logprob).sum)

/-- The per-token emission over the exclusive buckets. -/
def specEmit (exp : ℚ → ℚ) (tls : List TopLogprob) : ℚ :=
  let pp := specPair exp tls
  if pp.1 + pp.2 > 0 then pp.2 / (pp.1 + pp.2) else 0

/-- The soft-probability parse in closed (filter/sum) form with the exclusive
buckets — the amended reading of the claim. -/
def specParseLogprobs (exp : ℚ → ℚ) (bs : Nat) (lps : List TokenLogprob) :
    Option (List ℚ) :=
  let vals := lps.filterMap fun t =>
    if strHas t.token '1' || strHas t.token '0' then
      some (specEmit exp t.top_logprobs)
    else none
  if vals.length = bs then some vals else none

lemma topPair_go (exp : ℚ → ℚ) :
    ∀ (tls : List TopLogprob) (a b : ℚ),
      tls.foldl
        (fun pp tl =>
          if strHas tl.token '0' then (pp.1 + exp tl.logprob, pp.2)
          else if strHas tl.token '1' then (pp.1, pp.2 + exp tl.logprob)
          else pp)
        (a, b)
        = (a + (specPair exp tls).1, b + (specPair exp tls).2) := by
  intro tls
  induction tls with
  | nil => intro a b; simp [specPair]
  | cons t rest ih =>
    intro a b
    simp only [List.foldl_cons]
    by_cases h0 : strHas t.token '0'
    · rw [if_pos h0, ih]
      unfold specPair
      simp [List.filter_cons, h0, add_assoc]
    · rw [if_neg h0]
      by_cases h1 : strHas t.token '1'
      · rw [if_pos h1, ih]
        unfold specPair
        simp [List.filter_cons, h0, h1, add_assoc]
      · rw [if_neg h1, ih]
        unfold specPair
        simp [List.filter_cons, h0, h1]

lemma binaryProb_eq_specEmit (exp : ℚ → ℚ) (tls : List TopLogprob) :
    binaryProb exp tls = specEmit exp tls := by
  unfold binaryProb specEmit topPair
  rw [topPair_go]
  simp

/-- C5 (amended).  The code's soft-probability parser equals the closed-form
description with exclusive buckets: for every token of the stream containing
`'0'` or `'1'`, `p0` sums the exponentiated log-probabilities of the top-5
alternatives containing `'0'` and `p1` those containing `'1'` but not `'0'`
(the `elif`), emitting `p1 / (p0 + p1)` if the sum is positive, else `0`;
and on the claim's instance — alternatives `"0"` and `"1"` whose exponentiated
log-probabilities are `0.2` and `0.8` — the emitted probability is `0.8`. -/
theorem parse_logprobs_spec (exp : ℚ → ℚ) (bs : Nat) (lps : List TokenLogprob) :
    Classifier.parse_logprobs exp bs lps = specParseLogprobs exp bs lps
    ∧ Classifier.parse_logprobs
        (fun q => if q = 0 then (1 : ℚ)/5 else 4/5) 1
        [⟨"1", [⟨"0", 0⟩, ⟨"1", 1⟩]⟩] = some [4/5] := by
  constructor
  · unfold Classifier.parse_logprobs specParseLogprobs
    rw [show (fun (t : TokenLogprob) =>
        if strHas t.token '1' || strHas t.token '0' then
          some (binaryProb exp t.top_logprobs)
        else none)
      = (fun (t : TokenLogprob) =>
        if strHas t.token '1' || strHas t.token '0' then
          some (specEmit exp t.top_logprobs)
        else none) from funext fun t => by rw [binaryProb_eq_specEmit]]
  · have hA : strHas "1" '1' = true := by decide
    have hB : strHas "1" '0' = false := by decide
    have hC : strHas "0" '0' = true := by decide
    simp only [Classifier.parse_logprobs, List.filterMap_cons, List.filterMap_nil,
      binaryProb, topPair, List.foldl_cons, List.foldl_nil, hA, hB, hC,
      Bool.true_or, Bool.or_false, if_true, if_false]
    norm_num

/-- Counterexample to C5 as stated: an alternative token `"10"` contains both
digits; the claim's inclusive buckets put its mass into `p1` as well (emitting
`1/2` here), but the code's `elif` puts it only into `p0` (emitting `0`). -/
theorem logprob_bucket_overlap_cex :
    Classifier.parse_logprobs (fun _ => (1 : ℚ)/2) 1 [⟨"1", [⟨"10", 0⟩]⟩]
        = some [0]
    ∧ specParseLogprobsInclusive (fun _ => (1 : ℚ)/2) 1 [⟨"1", [⟨"10", 0⟩]⟩]
        = some [1/2]
    ∧ ((0 : ℚ) ≠ 1/2) := by
  have hA : strHas "1" '1' = true := by decide
  have hD : strHas "10" '0' = true := by decide
  have hE : strHas "10" '1' = true := by decide
  refine ⟨?_, ?_, by norm_num⟩
  · simp only [Classifier.parse_logprobs, List.filterMap_cons, List.filterMap_nil,
      binaryProb, topPair, List.foldl_cons, List.foldl_nil, hA, hD,
      Bool.true_or, Bool.or_false, if_true, if_false]
    norm_num
  · simp only [specParseLogprobsInclusive, specEmitInclusive, specPairInclusive,
      List.filterMap_cons, List.filterMap_nil, List.filter_cons, List.filter_nil,
      List.map_cons, List.map_nil, List.sum_cons, List.sum_nil, hA, hD, hE,
      Bool.true_or, Bool.or_false, if_true, if_false]
    norm_num

/-! ## Range of the probability field -/

lemma topPair_nonneg (exp : ℚ → ℚ) (hexp : ∀ x, 0 ≤ exp x)
    (tls : List TopLogprob) :
    0 ≤ (topPair exp tls).1 ∧ 0 ≤ (topPair exp tls).2 := by
  unfold topPair
  rw [topPair_go]
  constructor
  · refine add_nonneg le_rfl (List.sum_nonneg ?_)
    intro x hx
    obtain ⟨t, _, rfl⟩ := List.mem_map.mp hx
    exact hexp t.logprob
  · refine add_nonneg le_rfl (List.sum_nonneg ?_)
    intro x hx
    obtain ⟨t, _, rfl⟩ := List.mem_map.mp hx
    exact hexp t.logprob

lemma binaryProb_bounds (exp : ℚ → ℚ) (hexp : ∀ x, 0 ≤ exp x)
    (tls : List TopLogprob) :
    0 ≤ binaryProb exp tls ∧ binaryProb exp tls ≤ 1 := by
  obtain ⟨h0, h1⟩ := topPair_nonneg exp hexp tls
  unfold binaryProb
  by_cases hpos : (topPair exp tls).1 + (topPair exp tls).2 > 0
  · rw [if_pos hpos]
    constructor
    · exact div_nonneg h1 (le_of_lt hpos)
    · rw [div_le_one hpos]
      linarith
  · rw [if_neg hpos]
    norm_num

lemma parse_logprobs_bounds (exp : ℚ → ℚ) (hexp : ∀ x, 0 ≤ exp x) (bs : Nat)
    (lps : List TokenLogprob) (probs : List ℚ)
    (h : Classifier.parse_logprobs exp bs lps = some probs) :
    ∀ v ∈ probs, 0 ≤ v ∧ v ≤ 1 := by
  simp only [Classifier.parse_logprobs] at h
  split at h
  · cases h
    intro v hv
    obtain ⟨t, _, hf⟩ := List.mem_filterMap.mp hv
    by_cases hc : strHas t.token '1' || strHas t.token '0'
    · rw [if_pos hc] at hf
      cases hf
      exact binaryProb_bounds exp hexp t.top_logprobs
    · rw [if_neg hc] at hf
      cases hf
  · cases h

lemma parse_snd_cases (exp : ℚ → ℚ) (hexp : ∀ x, 0 ≤ exp x) (bs : Nat)
    (s : String) (lp : Option (List TokenLogprob)) (p : List Jv)
    (q : List (Option ℚ)) (h : Classifier.parse exp bs s lp = some (p, q)) :
    ∀ x ∈ q, x = none ∨ ∃ v, x = some v ∧ 0 ≤ v ∧ v ≤ 1 := by
  unfold Classifier.parse at h
  split at h
  · cases h
  · split at h
    · split at h
      · cases h
        intro x hx
        exact Or.inl (List.eq_of_mem_replicate hx)
      · rename_i lps
        split at h
        · cases h
        · rename_i probs hpl
          cases h
          intro x hx
          obtain ⟨v, hv, rfl⟩ := List.mem_map.mp hx
          obtain ⟨hv0, hv1⟩ := parse_logprobs_bounds exp hexp bs lps probs hpl v hv
          exact Or.inr ⟨v, rfl, hv0, hv1⟩
    · cases h

lemma rawPair_client_error (exp : ℚ → ℚ) (c : Classifier) (prompt : String)
    (e : String) (h : c.client prompt = Except.error e) :
    Classifier.rawPair exp c prompt = Classifier.undetermined c := by
  unfold Classifier.rawPair
  rw [h]

lemma rawPair_client_ok (exp : ℚ → ℚ) (c : Classifier) (prompt : String)
    (r : Response) (h : c.client prompt = Except.ok r) :
    Classifier.rawPair exp c prompt
      = match Classifier.parse exp c.batch_size r.text
            (if c.log_prob then r.logprobs else none) with
        | some pq => pq
        | none => Classifier.undetermined c := by
  unfold Classifier.rawPair
  rw [h]

lemma rawPair_snd_cases (exp : ℚ → ℚ) (c : Classifier) (prompt : String)
    (hexp : ∀ x, 0 ≤ exp x) :
    ∀ x ∈ (Classifier.rawPair exp c prompt).2,
      x = some (-1) ∨ x = none ∨ ∃ v, x = some v ∧ 0 ≤ v ∧ v ≤ 1 := by
  intro x hx
  cases hc : c.client prompt with
  | error e =>
    rw [rawPair_client_error exp c prompt e hc] at hx
    simp only [Classifier.undetermined] at hx
    exact Or.inl (List.eq_of_mem_replicate hx)
  | ok r =>
    rw [rawPair_client_ok exp c prompt r hc] at hx
    cases hp : Classifier.parse exp c.batch_size r.text
        (if c.log_prob then r.logprobs else none) with
    | none =>
      rw [hp] at hx
      simp only [Classifier.undetermined] at hx
      exact Or.inl (List.eq_of_mem_replicate hx)
    | some pq =>
      rw [hp] at hx
      rcases parse_snd_cases exp hexp c.batch_size r.text _ pq.1 pq.2
          (by rw [hp, Prod.mk.eta]) x hx with hn | ⟨v, hv, hv0, hv1⟩
      · exact Or.inr (Or.inl hn)
      · exact Or.inr (Or.inr ⟨v, hv, hv0, hv1⟩)

/-- C7 (amended).  Provided the exponential is nonnegative (as `np.exp` is)
and samples start with no probability attached: every returned output carries
either no probability (log-probabilities absent and the batch parsed), the
out-of-range marker `-1` (the batch's client call or parse failed — the
substituted `probabilities = [-1] * batch_size` is attached verbatim because
`-1 is not None`), or a soft probability within `[0, 1]`. -/
theorem probability_field_cases (exp : ℚ → ℚ) (c : Classifier) (expl : String)
    (batch : List Sample) (hexp : ∀ x, 0 ≤ exp x)
    (hinit : ∀ smp ∈ batch, smp.data.probability = none) :
    ∀ out ∈ Classifier.generate exp c expl batch,
      out.probability = none ∨ out.probability = some (-1)
        ∨ ∃ p, out.probability = some p ∧ 0 ≤ p ∧ p ≤ 1 := by
  intro out hout
  rw [generate_eq] at hout
  unfold Classifier.assemble at hout
  obtain ⟨t, ht, rfl⟩ := List.mem_map.mp hout
  obtain ⟨h1, _, h3⟩ := zip3_mem ht
  rcases rawPair_snd_cases exp c _ hexp t.2.2 h3
      with hx | hx | ⟨v, hx, hv0, hv1⟩
  · right; left
    rw [assembleOne_probability, hx]
  · left
    rw [assembleOne_probability, hx]
    exact hinit t.1 h1
  · right; right
    exact ⟨v, by rw [assembleOne_probability, hx], hv0, hv1⟩

/-- Witness for C7 (amended): a successful parse without log-probabilities
leaves `probability` absent. -/
theorem probability_field_cases_witness :
    (∀ x : ℚ, 0 ≤ (fun _ : ℚ => (1 : ℚ)) x)
    ∧ (∀ smp ∈ ([⟨"t", { ground_truth := true, distance := 1 }⟩] : List Sample),
        smp.data.probability = none)
    ∧ (∀ out ∈ Classifier.generate (fun _ : ℚ => (1 : ℚ))
          ⟨fun _ => Except.ok ⟨"[1]", none⟩, false, 1, false, fun _ ex => ex⟩ "e"
          [⟨"t", { ground_truth := true, distance := 1 }⟩],
        out.probability = none ∨ out.probability = some (-1)
          ∨ ∃ p, out.probability = some p ∧ 0 ≤ p ∧ p ≤ 1) :=
  ⟨fun _ => zero_le_one, by decide,
    probability_field_cases (fun _ : ℚ => (1 : ℚ))
      ⟨fun _ => Except.ok ⟨"[1]", none⟩, false, 1, false, fun _ ex => ex⟩ "e"
      [⟨"t", { ground_truth := true, distance := 1 }⟩]
      (fun _ => zero_le_one) (by decide)⟩

/-- Counterexample to C7 as stated: on a failed batch every output carries
`probability = -1`, which lies outside `[0, 1]` and is attached even though
log-probability scoring was not requested (`log_prob = false`). -/
theorem probability_out_of_range_cex :
    (Classifier.generate (fun q => q)
        ⟨fun _ => Except.error "boom", false, 1, false, fun _ ex => ex⟩ "e"
        [⟨"t", { ground_truth := false, distance := -1 }⟩]).map
        ClassifierOutput.probability
      = [some (-1)]
    ∧ ¬ (0 ≤ (-1 : ℚ))
    ∧ (⟨fun _ => Except.error "boom", false, 1, false, fun _ ex => ex⟩ :
        Classifier).log_prob = false := by
  refine ⟨by decide, by norm_num, rfl⟩

/-! ## The recall preparer -/

lemma foldl_append_flatten {α β : Type _} (f : α → List β) :
    ∀ (l : List α) (init : List β),
      l.foldl (fun acc x => acc ++ f x) init = init ++ (l.map f).flatten := by
  intro l
  induction l with
  | nil => intro init; simp
  | cons a t ih => intro init; simp [ih, List.append_assoc]

/-- C8.  The recall preparer's flat sample list is the random negatives —
each with `distance = -1` and `ground_truth = false` — followed, group by
group, by the positive test groups, where every example of the `i`-th
test group (1-indexed: the group at 0-based index `i - 1`) becomes a sample
with `distance = i` and `ground_truth = true`. -/
theorem recall_prepare_provenance (render : Example → String)
    (record : FeatureRecord) :
    RecallScorer.prepare render record
        = record.random_examples.map
            (fun e => { text := render e,
                        data := { ground_truth := false, distance := -1 } })
          ++ (record.test.enum.map fun p =>
                p.2.map fun e =>
                  ({ text := render e,
                     data := { ground_truth := true,
                               distance := (p.1 : Int) + 1 } } : Sample)).flatten
    ∧ (∀ e ∈ record.random_examples,
        ({ text := render e, data := { ground_truth := false, distance := -1 } } :
          Sample) ∈ RecallScorer.prepare render record)
    ∧ (∀ (i : Nat) (g : List Example), (i, g) ∈ record.test.enum → ∀ e ∈ g,
        ({ text := render e,
           data := { ground_truth := true, distance := (i : Int) + 1 } } :
          Sample) ∈ RecallScorer.prepare render record) := by
  have heq : RecallScorer.prepare render record
      = record.random_examples.map
          (fun e => { text := render e,
                      data := { ground_truth := false, distance := -1 } })
        ++ (record.test.enum.map fun p =>
              p.2.map fun e =>
                ({ text := render e,
                   data := { ground_truth := true,
                             distance := (p.1 : Int) + 1 } } : Sample)).flatten := by
    unfold RecallScorer.prepare
    rw [foldl_append_flatten]
    rfl
  refine ⟨heq, ?_, ?_⟩
  · intro e he
    rw [heq]
    exact List.mem_append_left _ (List.mem_map_of_mem _ he)
  · intro i g hg e he
    rw [heq]
    refine List.mem_append_right _ ?_
    rw [List.mem_flatten]
    exact ⟨_, List.mem_map_of_mem _ hg, List.mem_map_of_mem _ he⟩

/-! ## The samplers' input-contract check -/

lemma sampleTestQuantiles_error (sampleFn : List Example → Nat → List Example)
    (n_test : Nat) :
    ∀ (quantiles : List (List Example)) (q : List Example),
      q ∈ quantiles → q.length < n_test →
      ∃ e, sampleTestQuantiles sampleFn quantiles n_test = Except.error e := by
  intro quantiles
  induction quantiles with
  | nil => intro q hq _; simp at hq
  | cons q0 rest ih =>
    intro q hq hsmall
    rcases List.mem_cons.mp hq with rfl | hq
    · refine ⟨"Quantile has too few examples", ?_⟩
      unfold sampleTestQuantiles check_quantile
      rw [if_pos hsmall]
    · by_cases h0 : q0.length < n_test
      · refine ⟨"Quantile has too few examples", ?_⟩
        unfold sampleTestQuantiles check_quantile
        rw [if_pos h0]
      · obtain ⟨e, he⟩ := ih q hq hsmall
        refine ⟨e, ?_⟩
        unfold sampleTestQuantiles check_quantile
        rw [if_neg h0, he]

lemma sampleTestQuantiles_ok (sampleFn : List Example → Nat → List Example)
    (n_test : Nat) :
    ∀ (quantiles ts : List (List Example)),
      sampleTestQuantiles sampleFn quantiles n_test = Except.ok ts →
      (∀ q ∈ quantiles, n_test ≤ q.length)
      ∧ ts = quantiles.map fun q => sampleFn q n_test := by
  intro quantiles
  induction quantiles with
  | nil =>
    intro ts h
    unfold sampleTestQuantiles at h
    cases h
    simp
  | cons q0 rest ih =>
    intro ts h
    unfold sampleTestQuantiles check_quantile at h
    by_cases h0 : q0.length < n_test
    · rw [if_pos h0] at h
      cases h
    · rw [if_neg h0] at h
      cases hrec : sampleTestQuantiles sampleFn rest n_test with
      | error e => rw [hrec] at h; cases h
      | ok tl =>
        rw [hrec] at h
        cases h
        obtain ⟨hall, hts⟩ := ih tl hrec
        refine ⟨?_, by simp [hts]⟩
        intro q hq
        rcases List.mem_cons.mp hq with rfl | hq
        · omega
        · exact hall q hq

/-- C9.  Whenever the activation-quantile split succeeds, every test
quantile (all buckets after the first) is checked against `n_test` before
sampling: a too-small test quantile makes the whole sampler raise — the
violation is fatal, not recovered — and conversely a successful run certifies
that every test quantile held at least `n_test` examples and was sampled. -/
theorem quantile_check_fatal (sampleFn : List Example → Nat → List Example)
    (record : FeatureRecord) (n_train n_test n_quantiles : Nat)
    (aq : List (List Example))
    (haq : split_activation_quantiles record.examples n_quantiles = some aq) :
    (∀ q ∈ aq.tail, q.length < n_test →
      ∃ e, random_and_activation_quantiles sampleFn record n_train n_test
          n_quantiles = Except.error e)
    ∧ (∀ r, random_and_activation_quantiles sampleFn record n_train n_test
          n_quantiles = Except.ok r →
        (∀ q ∈ aq.tail, n_test ≤ q.length)
        ∧ r.test = aq.tail.map fun q => sampleFn q n_test) := by
  cases aq with
  | nil =>
    have hnil : random_and_activation_quantiles sampleFn record n_train n_test
        n_quantiles = Except.error "IndexError" := by
      unfold random_and_activation_quantiles
      rw [haq]
    refine ⟨?_, ?_⟩
    · intro q hq
      simp at hq
    · intro r hr
      rw [hnil] at hr
      cases hr
  | cons q0 tq =>
    have heq : random_and_activation_quantiles sampleFn record n_train n_test
        n_quantiles
        = match sampleTestQuantiles sampleFn tq n_test with
          | Except.error e => Except.error e
          | Except.ok ts =>
            Except.ok { record with train := sampleFn q0 n_train, test := ts } := by
      unfold random_and_activation_quantiles
      rw [haq]
    refine ⟨?_, ?_⟩
    · intro q hq hsmall
      obtain ⟨e, he⟩ := sampleTestQuantiles_error sampleFn n_test tq q hq hsmall
      rw [heq, he]
      exact ⟨e, rfl⟩
    · intro r hr
      rw [heq] at hr
      cases hrec : sampleTestQuantiles sampleFn tq n_test with
      | error e => rw [hrec] at hr; cases hr
      | ok ts =>
        rw [hrec] at hr
        cases hr
        obtain ⟨hall, hts⟩ := sampleTestQuantiles_ok sampleFn n_test tq ts hrec
        exact ⟨hall, by simp [hts]⟩

/-- Witness for C9: a pool whose middle activation-quantile bucket is empty
(fewer than `n_test = 2` examples) makes the sampler raise. -/
theorem quantile_check_fatal_witness :
    (split_activation_quantiles
        [⟨0, 9⟩, ⟨1, 1⟩, ⟨2, 2⟩, ⟨3, 8⟩] 3
      = some [[⟨1, 1⟩, ⟨2, 2⟩], [], [⟨0, 9⟩, ⟨3, 8⟩]])
    ∧ (∃ e, random_and_activation_quantiles (fun q n => q.take n)
        { examples := [⟨0, 9⟩, ⟨1, 1⟩, ⟨2, 2⟩, ⟨3, 8⟩] } 10 2 3
        = Except.error e) := by
  have haq : split_activation_quantiles
      ({ examples := [⟨0, 9⟩, ⟨1, 1⟩, ⟨2, 2⟩, ⟨3, 8⟩] } :
        FeatureRecord).examples 3
      = some [[⟨1, 1⟩, ⟨2, 2⟩], [], [⟨0, 9⟩, ⟨3, 8⟩]] := by
    norm_num [split_activation_quantiles, bucketIdx, List.range',
      List.findIdx?, List.range, List.range.loop, List.filter]
  exact ⟨haq,
    (quantile_check_fatal (fun q n => q.take n)
        { examples := [⟨0, 9⟩, ⟨1, 1⟩, ⟨2, 2⟩, ⟨3, 8⟩] } 10 2 3
        [[⟨1, 1⟩, ⟨2, 2⟩], [], [⟨0, 9⟩, ⟨3, 8⟩]] haq).1
      [] (by decide) (by decide)⟩

end Delphi
